import Mathlib

/-!
Verification development for the scope-analysis and evaluation core of the
gosh interpreter (packages `compile`, `token` of pdk/gosh).

The Go sources are shallowly embedded:

* `Token` mirrors `token.Token` (the constructors used by the compile
  package, plus representative kinds that have no evaluator entry).
* `Node` mirrors `compile.Node` (token, literal, ordered children).
* Scope analysis (`Node.ScopeAnalysis`, `Node.FuncAnalysis`, `Node.Idents`,
  `Node.PrimaryIdent`, `Analysis.FreeVariables` from node.go) is embedded as
  fuel-indexed total functions; the fuel only bounds tree depth, so with
  fuel larger than the node depth the functions compute exactly what the Go
  recursion computes.
* Values (`compile.Value`, an interface holding nil / bool / int64 /
  float64 / string / Function / ControlValue) become the inductive `Value`.
  float64 payloads are represented by rationals; no claim below depends on
  IEEE-specific behavior.
* The scope chain (`compile.Variables`: map from name to *Value plus
  parent) is embedded as an arena: `Store.cells` is the heap of value
  cells (a Go `*Value` becomes a cell index) and `Store.scopes` the heap
  of scope records. `SetRef` binds a name to an existing cell, `SetVar`
  (Go `Variables.Set`) enforces the type-stability rule.
* The evaluator compiler (`Node.Evaluator` and the producers in
  evaluator.go) is `compileF : Nat → Node → Except Err Compiled`; running a
  compiled evaluator against a scope is `evalC : Nat → Compiled → Store →
  Nat → Store × Res`.  `Res.crash` marks places where the Go code would
  raise a host-language runtime panic (integer division by zero,
  calling Kind() on the nil reflect.Type, comparing uncomparable types).
-/

set_option maxHeartbeats 1000000

namespace Gosh

/-- Token kinds from token/token.go restricted to the kinds the compile
package dispatches on, plus kinds (`FOR`, `METHAPPLY`, `QASSIGN`, `ACCUM`,
`PERIOD`, `LSQR`, `SEMI`) that exist in the language but have no entry in
the evaluator table. -/
inductive Token where
  | IDENT | ASSIGN | INT | FLOAT | STRING
  | PLUS | MINUS | MODULO | MULT | DIV
  | COMMA | LPAREN | TRUE | FALSE | NIL
  | FUNC | FUNCAPPLY | STMTS | EXTERN
  | EQUAL | NOT_EQUAL | LESS | LESS_EQUAL | GRTR | GRTR_EQUAL
  | NOT | LOG_AND | LOG_OR
  | IF | WHILE | RETURN | BREAK | CONTINUE
  | FOR | METHAPPLY | QASSIGN | ACCUM | PERIOD | LSQR | SEMI
  deriving DecidableEq, Repr

/-- compile.Node: a lexeme (token kind and literal text) plus ordered
children.  Source positions are not modelled; the analysis record is not
stored in the node but recomputed by `funcAnalysisF`, which is a pure
function of the subtree (`FuncAnalysis` only reads the subtree; the
`parent` link is used only by the diagnostic `BoundInAncestor`). -/
inductive Node where
  | mk (tok : Token) (lit : String) (children : List Node)

def Node.tok : Node → Token
  | .mk t _ _ => t

def Node.lit : Node → String
  | .mk _ l _ => l

def Node.children : Node → List Node
  | .mk _ _ cs => cs

/-- Errors.  One inductive covers analysis errors, compile errors and
runtime errors (Go uses `error` values built with fmt.Errorf for all
three); the constructors record which message the Go code produces. -/
inductive Err where
  | unknownOperator (lit : String)      -- "unknown operator %s"
  | undefinedVariable (name : String)   -- "attempt to access undefined variable %s"
  | typeMismatch (name : String)        -- "attempt to convert variable %s from type %T to type %T"
  | countMismatch                        -- "count of variables on left does not match ..."
  | assignTargets                        -- "left-hand side of assignment must be one or more identifiers"
  | singleValueExpected (n : Nat)        -- "expected single value but got %d"
  | cannotApplyMultiple                  -- "cannot apply multiple values as a function"
  | cannotApplyNonFunction               -- "cannot apply a non-function"
  | argCountMismatch                     -- "number of arguments does not match number of parameters"
  | unableToResolve (e : Err)            -- "unable to resolve function: %s"
  | captureFailure (name : String)       -- "unable to capture free variable %s: %s"
  | cannotApplyOp (lit : String)         -- "cannot apply %s to %T and %T"
  | cannotNegate                         -- "cannot apply - (negative) to %T"
  | differentTypes                       -- "cannot compare values of different types"
  | unorderableTypes                     -- "don't know how to compare those types"
  | literalParse (lit : String)          -- strconv.ParseInt / ParseFloat failure
  | notIdentList                         -- "expected to find (one of) ..." (Idents)
  | notAFunction                         -- FuncAnalysis called on a non-FUNC node
  | integerDivideByZero                  -- Go runtime panic: integer divide by zero
  | nilKindDeref                         -- Go runtime panic: Kind() on the nil reflect.Type
  | uncomparable                         -- Go runtime panic: comparing uncomparable type
  | indexRange                           -- Go runtime panic: index out of range (malformed arity)
  | outOfFuel                            -- model artifact: fuel exhausted (never with ample fuel)

/-! ## Scope analysis (node.go) -/

/-- Insert into a list acting as a set (Go `map[string]bool`); keeps first
insertion order, which is immaterial to all claims (Go map order is
unspecified). -/
def insertName (l : List String) (x : String) : List String :=
  if x ∈ l then l else l ++ [x]

/-- Analysis collector being filled by ScopeAnalysis (identifiers, locals,
externs fields of compile.Analysis). -/
structure Collector where
  identifiers : List String := []
  locals : List String := []
  externs : List String := []

/-- compile.Analysis after FuncAnalysis has completed. -/
structure Analysis where
  identifiers : List String
  parameters : List String
  channels : List String
  locals : List String
  externs : List String
  body : Node

/-- Node.PrimaryIdent: peel index/field wrappers down to the left-most
identifier.  Quirk kept from the source: when the token is not one of
IDENT/PERIOD/LSQR, `AssertIsToken` fails but PrimaryIdent returns `("" , nil)`
— an empty name and NO error.  `none` marks the one place the Go code would
crash (children[0] on an empty child list). -/
def primaryIdentF : Nat → Node → Option String
  | 0, _ => none
  | fuel+1, n =>
    if n.tok = .IDENT ∨ n.tok = .PERIOD ∨ n.tok = .LSQR then
      if n.tok = .IDENT then some n.lit
      else
        match n.children with
        | c :: _ => primaryIdentF fuel c
        | [] => none
    else some ""

/-- Fold of Idents over a child list (stops at the first error, like the
Go loop). -/
def identsListF (f : Node → Except Err (List String)) :
    List Node → Except Err (List String)
  | [] => .ok []
  | c :: rest => do
    let ids ← f c
    let more ← identsListF f rest
    .ok (ids ++ more)

/-- Node.Idents: flatten a parameter/channel declaration into identifier
names; only IDENT/COMMA/LSQR/LPAREN shapes are allowed. -/
def identsF : Nat → Node → Except Err (List String)
  | 0, _ => .error .outOfFuel
  | fuel+1, n =>
    if n.tok = .IDENT ∨ n.tok = .COMMA ∨ n.tok = .LSQR ∨ n.tok = .LPAREN then
      if n.tok = .IDENT then .ok [n.lit]
      else identsListF (identsF fuel) n.children
    else .error .notIdentList

/-- Node.AssignAnalysis: on ASSIGN/QASSIGN/ACCUM nodes, record the primary
identifier(s) of the left-hand side as locals.  Errors from PrimaryIdent
are dropped by the caller (ScopeAnalysis line 292 discards the result), so
the collector state is all that matters; additions made before a failing
target are kept, as in the source. -/
def assignAnalysisF (fuel : Nat) (n : Node) (col : Collector) : Collector :=
  if n.tok = .ASSIGN ∨ n.tok = .QASSIGN ∨ n.tok = .ACCUM then
    match n.children with
    | [] => col
    | lhs :: _ =>
      if lhs.tok = .COMMA ∨ lhs.tok = .LPAREN then
        lhs.children.foldl
          (fun c each =>
            match primaryIdentF fuel each with
            | some id => { c with locals := insertName c.locals id }
            | none => c)
          col
      else
        match primaryIdentF fuel lhs with
        | some id => { col with locals := insertName col.locals id }
        | none => col
  else col

/-- One step of ScopeAnalysis over a child list. -/
def scopeAnalysisListF (f : Node → Collector → Collector) :
    List Node → Collector → Collector
  | [], col => col
  | c :: rest, col => scopeAnalysisListF f rest (f c col)

/-- Node.ScopeAnalysis: crawl the tree collecting identifiers, locals and
externs.  A nested FUNC starts its own collector (FuncAnalysis) and leaves
the enclosing collector untouched; METHAPPLY records the object's primary
identifier and recurses only into arguments; PERIOD recurses only into the
left child.  Errors are dropped at every call site in the source, so the
embedding returns just the collector. -/
def scopeAnalysisF : Nat → Node → Collector → Collector
  | 0, _, col => col
  | fuel+1, n, col =>
    if n.tok = .FUNC then col
    else if n.tok = .METHAPPLY then
      match n.children with
      | obj :: _ =>
        match primaryIdentF fuel obj with
        | some id =>
          scopeAnalysisListF (scopeAnalysisF fuel) (n.children.drop 2)
            { col with identifiers := insertName col.identifiers id }
        | none => col
      | [] => col
    else
      let col := assignAnalysisF fuel n col
      let col :=
        if n.tok = .EXTERN then
          n.children.foldl
            (fun c ch =>
              if ch.tok = .IDENT then
                { c with externs := insertName c.externs ch.lit }
              else c)
            col
        else col
      let col :=
        if n.tok = .IDENT then
          { col with identifiers := insertName col.identifiers n.lit }
        else col
      if n.tok = .PERIOD then
        match n.children with
        | c :: _ => scopeAnalysisF fuel c col
        | [] => col
      else scopeAnalysisListF (scopeAnalysisF fuel) n.children col

/-- Node.FuncAnalysis: build the Analysis of a FUNC node — parameters and
channels from the first two children, then ScopeAnalysis of the body, then
the post-pass deleting every extern name from locals. -/
def funcAnalysisF (fuel : Nat) (n : Node) : Except Err Analysis :=
  if n.tok = .FUNC then
    match n.children with
    | c0 :: c1 :: c2 :: _ =>
      match identsF fuel c0 with
      | .error e => .error e
      | .ok ps =>
        match identsF fuel c1 with
        | .error e => .error e
        | .ok chs =>
          let col := scopeAnalysisF fuel c2 {}
          .ok { identifiers := col.identifiers
                parameters := ps
                channels := chs
                locals := col.locals.filter (fun x => decide (x ∉ col.externs))
                externs := col.externs
                body := c2 }
    | _ => .error .indexRange
  else .error .notAFunction

/-- Analysis.FreeVariables: start from externs, then append every
identifier not already in the list and not a parameter, channel or local. -/
def FreeVariables (a : Analysis) : List String :=
  a.identifiers.foldl
    (fun free id =>
      if id ∈ free ∨ id ∈ a.parameters ∨ id ∈ a.channels ∨ id ∈ a.locals then
        free
      else free ++ [id])
    a.externs

/-! ## Values (value.go) -/

/-- ControlType from value.go. -/
inductive ControlType where
  | none | ret | brk | cont
  deriving DecidableEq

/-- Compiled evaluators: the closure tree built by the producers in
evaluator.go.  One constructor per producer; `funcDef` stores the FUNC
node itself because FuncDefinition compiles the body and reads the
analysis only when the literal is evaluated. -/
inductive Compiled where
  | lookupVar (name : String)                      -- VariableLookup
  | assign (names : List String) (rhs : Compiled)  -- AssignValues
  | intLit (i : Int)                               -- IntegerLiteral (parsed at compile time)
  | floatLit (q : Rat)                             -- FloatLiteral
  | strLit (s : String)                            -- StringLiteral
  | trueLit | falseLit | nilLit                    -- TrueLiteral / FalseLiteral / NilLiteral
  | funcDef (n : Node)                             -- FuncDefinition
  | funcApply (fn : Compiled) (args : List Compiled)  -- FuncApplication
  | stmts (children : List Compiled)               -- StatementsEvaluator
  | multi (children : List Compiled)               -- MultiValueOperator
  | noop                                           -- Noop (EXTERN)
  | addOp (l r : Compiled)                         -- AdditionOperator
  | subOp (l r : Compiled)                         -- SubtractionOperator (binary)
  | negOp (e : Compiled)                           -- NegativeOperation (unary minus)
  | mulOp (l r : Compiled)                         -- MultiplicationOperator
  | divOp (l r : Compiled)                         -- DivisionOperator
  | modOp (l r : Compiled)                         -- ModuloOperation
  | eqOp (l r : Compiled) | neOp (l r : Compiled)  -- Equal / NotEqual
  | ltOp (l r : Compiled) | leOp (l r : Compiled)  -- LessThan / LessThanEqual
  | gtOp (l r : Compiled) | geOp (l r : Compiled)  -- GreaterThan / GreaterThanEqual
  | notOp (e : Compiled)                           -- NotOperator
  | andOp (l r : Compiled) | orOp (l r : Compiled) -- LogicalAnd / LogicialOr
  | condOp (evals : List Compiled)                 -- ConditionalOperator
  | loop (cond body : Compiled)                    -- LoopOperator
  | retOp (e : Option Compiled)                    -- ReturnOperator
  | brkOp | contOp                                 -- BreakOperator / ContinueOperator

/-- compile.Value: the runtime interface value.  `funcV` inlines the fields
of compile.Function (parameters, channels, locals, the captured scope —
here an index into `Store.scopes` — and the compiled body); `ctrlV`
inlines compile.ControlValue. -/
inductive Value where
  | nilV
  | boolV (b : Bool)
  | intV (i : Int)
  | floatV (q : Rat)
  | strV (s : String)
  | funcV (parameters channels locals : List String) (captured : Nat) (body : Compiled)
  | ctrlV (which : ControlType) (returnValues : List Value)

/-- The dynamic type reflect.TypeOf sees for a stored value. -/
inductive GoType where
  | bool | int64 | float64 | string | function | control
  deriving DecidableEq

/-- Value.TypeOf / reflect.TypeOf: the nil interface value has no type
(reflect.TypeOf returns the nil reflect.Type), hence `Option`. -/
def TypeOf : Value → Option GoType
  | .nilV => none
  | .boolV _ => some .bool
  | .intV _ => some .int64
  | .floatV _ => some .float64
  | .strV _ => some .string
  | .funcV _ _ _ _ _ => some .function
  | .ctrlV _ _ => some .control

/-- Value.IsNil. -/
def IsNil : Value → Bool
  | .nilV => true
  | _ => false

/-- Value.IsTruthy: false only for nil and the boolean false. -/
def IsTruthy : Value → Bool
  | .nilV => false
  | .boolV b => b
  | _ => true

/-- BreakValue(). -/
def BreakValue : List Value := [.ctrlV .brk []]

/-- ContinueValue(). -/
def ContinueValue : List Value := [.ctrlV .cont []]

/-- ReturnValue(vals). -/
def ReturnValue (vals : List Value) : List Value := [.ctrlV .ret vals]

/-- IsControlValue: exactly one value and it is a ControlValue. -/
def IsControlValue : List Value → Bool
  | [.ctrlV _ _] => true
  | _ => false

/-- IsBreakValue. -/
def IsBreakValue : List Value → Bool
  | [.ctrlV .brk _] => true
  | _ => false

/-- IsContinueValue. -/
def IsContinueValue : List Value → Bool
  | [.ctrlV .cont _] => true
  | _ => false

/-- IsReturnValue. -/
def IsReturnValue : List Value → Bool
  | [.ctrlV .ret _] => true
  | _ => false

/-- WrappedValues: the []Value carried inside the control value at the head
of the slice.  Go would panic when misapplied; every call site in the
source guards with IsControlValue / IsBreakValue first, so the default
branch is unreachable there. -/
def WrappedValues : List Value → List Value
  | .ctrlV _ rv :: _ => rv
  | _ => []

/-- Result of a comparison function from value.go: a boolean, an ordinary
error, or a host-language panic. -/
inductive CmpRes where
  | ok (b : Bool)
  | err (e : Err)
  | crash (e : Err)

/-- Shared head of EqualValues and checkCompareKinds:
`left.TypeOf().Kind() != right.TypeOf().Kind()`.  Calling Kind() on the nil
reflect.Type (either operand nil) is a nil-pointer dereference — a Go
panic, not an error return. -/
def kindsOf (left right : Value) : Except Err (GoType × GoType) :=
  match TypeOf left with
  | Option.none => .error .nilKindDeref
  | some kl =>
    match TypeOf right with
    | Option.none => .error .nilKindDeref
    | some kr => .ok (kl, kr)

/-- Go interface equality `left.value == right.value` for two values of the
same dynamic type.  Comparing Function or ControlValue payloads panics at
runtime in Go (they contain slices), recorded as a crash. -/
def payloadEq (left right : Value) : CmpRes :=
  match left, right with
  | .boolV a, .boolV b => .ok (a = b)
  | .intV a, .intV b => .ok (a = b)
  | .floatV a, .floatV b => .ok (a = b)
  | .strV a, .strV b => .ok (a = b)
  | _, _ => .crash .uncomparable

/-- EqualValues. -/
def EqualValues (left right : Value) : CmpRes :=
  match kindsOf left right with
  | .error e => .crash e
  | .ok (kl, kr) =>
    if kl ≠ kr then .err .differentTypes
    else payloadEq left right

/-- NotEqualValues: negates EqualValues, propagating error or panic. -/
def NotEqualValues (left right : Value) : CmpRes :=
  match EqualValues left right with
  | .ok b => .ok (!b)
  | .err e => .err e
  | .crash e => .crash e

/-- checkCompareKinds: same kind required, and only int64/float64/string
are orderable. -/
def checkCompareKinds (left right : Value) : Except Err GoType ⊕ Err :=
  match kindsOf left right with
  | .error e => .inr e          -- panic
  | .ok (kl, kr) =>
    if kl ≠ kr then .inl (.error .differentTypes)
    else if kl = .int64 ∨ kl = .float64 ∨ kl = .string then .inl (.ok kl)
    else .inl (.error .unorderableTypes)

/-- Shared body of the four ordering comparisons, parameterized by the
per-type comparison used after checkCompareKinds succeeds. -/
def orderingValue (cmpI : Int → Int → Bool) (cmpF : Rat → Rat → Bool)
    (cmpS : String → String → Bool) (left right : Value) : CmpRes :=
  match checkCompareKinds left right with
  | .inr e => .crash e
  | .inl (.error e) => .err e
  | .inl (.ok _) =>
    match left, right with
    | .intV a, .intV b => .ok (cmpI a b)
    | .floatV a, .floatV b => .ok (cmpF a b)
    | .strV a, .strV b => .ok (cmpS a b)
    | _, _ => .crash .uncomparable   -- `panic("invalid value comparison")`, unreachable

/-- LessThanValue. -/
def LessThanValue : Value → Value → CmpRes :=
  orderingValue (· < ·) (· < ·) (· < ·)

/-- LessThanEqualValue. -/
def LessThanEqualValue : Value → Value → CmpRes :=
  orderingValue (· ≤ ·) (· ≤ ·) (· ≤ ·)

/-- GreaterThanValue. -/
def GreaterThanValue : Value → Value → CmpRes :=
  orderingValue (· > ·) (· > ·) (· > ·)

/-- GreaterThanEqualValue. -/
def GreaterThanEqualValue : Value → Value → CmpRes :=
  orderingValue (· ≥ ·) (· ≥ ·) (· ≥ ·)

/-! ## The scope chain (variables.go) -/

/-- compile.Variables: the name→cell map of one scope plus the optional
parent.  A Go `*Value` cell is an index into `Store.cells`; a `*Variables`
is an index into `Store.scopes`. -/
structure Variables where
  values : List (String × Nat)
  parent : Option Nat

/-- The arena holding every allocated scope and value cell.  NewScope
appends, so a scope's parent index is always smaller than its own index
(Go guarantees the same acyclicity through pointer creation order). -/
structure Store where
  scopes : List Variables
  cells : List Value

/-- Association-list lookup (Go map read). -/
def assocFind : List (String × Nat) → String → Option Nat
  | [], _ => Option.none
  | (k, v) :: rest, name => if k = name then some v else assocFind rest name

/-- Association-list write (Go map write): replace in place or append. -/
def assocSet : List (String × Nat) → String → Nat → List (String × Nat)
  | [], name, cid => [(name, cid)]
  | (k, v) :: rest, name, cid =>
    if k = name then (k, cid) :: rest else (k, v) :: assocSet rest name cid

/-- GlobalScope(): a store holding the single root scope. -/
def GlobalStore : Store := ⟨[⟨[], Option.none⟩], []⟩

/-- NewScope(parent): allocate an empty scope; returns its index. -/
def NewScope (st : Store) (parent : Nat) : Store × Nat :=
  (⟨st.scopes ++ [⟨[], some parent⟩], st.cells⟩, st.scopes.length)

/-- Variables.Reference, walking outward through parents.  `gas` bounds the
walk; `Reference` supplies `scopes.length`, enough for any
parent-decreasing chain, so the embedding computes exactly the Go
recursion on every store built by the operations here. -/
def ReferenceAux (st : Store) : Nat → Nat → String → Except Err Nat
  | 0, _, name => .error (.undefinedVariable name)
  | gas+1, sid, name =>
    match st.scopes[sid]? with
    | Option.none => .error (.undefinedVariable name)
    | some sd =>
      match assocFind sd.values name with
      | some cid => .ok cid
      | Option.none =>
        match sd.parent with
        | Option.none => .error (.undefinedVariable name)
        | some p => ReferenceAux st gas p name

/-- Variables.Reference. -/
def Reference (st : Store) (sid : Nat) (name : String) : Except Err Nat :=
  ReferenceAux st st.scopes.length sid name

/-- Variables.Value: Reference then dereference the cell. -/
def ValueOf (st : Store) (sid : Nat) (name : String) : Except Err Value :=
  match Reference st sid name with
  | .error e => .error e
  | .ok cid =>
    match st.cells[cid]? with
    | some v => .ok v
    | Option.none => .error (.undefinedVariable name)   -- unreachable: cells are never freed

/-- Variables.SetRef: bind a name in scope `sid` to an existing cell. -/
def SetRef (st : Store) (sid : Nat) (name : String) (cid : Nat) : Store :=
  match st.scopes[sid]? with
  | Option.none => st    -- Go would nil-deref; unreachable (sid comes from NewScope)
  | some sd =>
    ⟨st.scopes.set sid ⟨assocSet sd.values name cid, sd.parent⟩, st.cells⟩

/-- Variables.Set: in THIS scope only — absent or nil-valued names are
(re)bound to a fresh cell holding the value; otherwise the dynamic types
must match, and the value is written through the existing (possibly
shared) cell.  On a type mismatch nothing is mutated. -/
def SetVar (st : Store) (sid : Nat) (name : String) (val : Value) :
    Store × Except Err Value :=
  match st.scopes[sid]? with
  | Option.none => (st, .error (.undefinedVariable name))  -- unreachable
  | some sd =>
    match assocFind sd.values name with
    | Option.none =>
      (⟨st.scopes.set sid ⟨assocSet sd.values name st.cells.length, sd.parent⟩,
        st.cells ++ [val]⟩, .ok val)
    | some cid =>
      match st.cells[cid]? with
      | Option.none => (st, .error (.undefinedVariable name)) -- unreachable
      | some cur =>
        if IsNil cur then
          (⟨st.scopes.set sid ⟨assocSet sd.values name st.cells.length, sd.parent⟩,
            st.cells ++ [val]⟩, .ok val)
        else if TypeOf cur ≠ TypeOf val then
          (st, .error (.typeMismatch name))
        else
          (⟨st.scopes, st.cells.set cid val⟩, .ok val)

/-- The value currently stored for a name through THIS scope's own map
(the view `Variables.Set` consults): the cell bound in scope `sid`,
dereferenced. -/
def LocalValue (st : Store) (sid : Nat) (name : String) : Option Value :=
  match st.scopes[sid]? with
  | some sd =>
    match assocFind sd.values name with
    | some cid => st.cells[cid]?
    | Option.none => Option.none
  | Option.none => Option.none

/-! ## The evaluator compiler (evaluator.go) -/

/-- Two's-complement wrap of Go int64 arithmetic. -/
def wrap64 (z : Int) : Int := (z + 2 ^ 63) % 2 ^ 64 - 2 ^ 63

/-- A decimal digit's value. -/
def digitVal (c : Char) : Option Nat :=
  if '0' ≤ c ∧ c ≤ '9' then some (c.toNat - '0'.toNat) else Option.none

/-- Parse a non-empty run of decimal digits. -/
def parseDigits : List Char → Nat → Option Nat
  | [], acc => some acc
  | c :: rest, acc =>
    match digitVal c with
    | some d => parseDigits rest (acc * 10 + d)
    | Option.none => Option.none

/-- strconv.ParseInt(lit, 10, 0): base-10, optional sign, int64 range
check (bitSize 0 means the 64-bit int). -/
def parseGoInt (s : String) : Option Int :=
  let signed : List Char → Option Int
    | '-' :: rest =>
      match rest with
      | [] => Option.none
      | _ => (parseDigits rest 0).map (fun n => -(n : Int))
    | '+' :: rest =>
      match rest with
      | [] => Option.none
      | _ => (parseDigits rest 0).map (fun n => (n : Int))
    | [] => Option.none
    | cs => (parseDigits cs 0).map (fun n => (n : Int))
  match signed s.data with
  | some i => if -(2 ^ 63) ≤ i ∧ i < 2 ^ 63 then some i else Option.none
  | Option.none => Option.none

/-- Split a literal's characters at the first '.'. -/
def splitDot : List Char → List Char × Option (List Char)
  | [] => ([], Option.none)
  | '.' :: rest => ([], some rest)
  | c :: rest =>
    let r := splitDot rest
    (c :: r.1, r.2)

/-- strconv.ParseFloat for the plain decimal literals the lexer produces
(digits, optionally digits.digits; the minus sign is a separate operator
token).  The payload is represented as a rational; exponent notation is
not modelled (no claim involves it). -/
def parseGoFloat (s : String) : Option Rat :=
  match splitDot s.data with
  | (intPart, Option.none) =>
    match intPart with
    | [] => Option.none
    | _ => (parseDigits intPart 0).map (fun n => (n : Rat))
  | (intPart, some fracPart) =>
    match parseDigits intPart 0, parseDigits fracPart 0 with
    | some i, some f =>
      some ((i : Rat) + (f : Rat) / (10 : Rat) ^ fracPart.length)
    | _, _ => Option.none

/-- AssignValues, compile part: the left-hand side must be an identifier
or a comma list of identifiers. -/
def assignTargetsOf (lhs : Node) : Except Err (List String) :=
  if lhs.tok = .IDENT then .ok [lhs.lit]
  else if lhs.tok = .COMMA then
    lhs.children.foldr
      (fun v acc => do
        if v.tok = .IDENT then
          let rest ← acc
          .ok (v.lit :: rest)
        else .error .assignTargets)
      (.ok [])
  else .error .assignTargets

/-- Compile each child in order, stopping at the first error. -/
def compileListF (cp : Node → Except Err Compiled) :
    List Node → Except Err (List Compiled)
  | [] => .ok []
  | c :: rest => do
    let cc ← cp c
    let more ← compileListF cp rest
    .ok (cc :: more)

/-- LeftRightEvaluators: compile children[0] then children[1].  A missing
child is an index-out-of-range crash in Go. -/
def compileBinary (cp : Node → Except Err Compiled) (n : Node)
    (mk : Compiled → Compiled → Compiled) : Except Err Compiled :=
  match n.children with
  | l :: r :: _ => do
    let lc ← cp l
    let rc ← cp r
    .ok (mk lc rc)
  | _ => .error .indexRange

/-- True exactly for the token kinds registered in the `nodeEvaluator`
dispatch table in evaluator.go's init(). -/
def hasProducer : Token → Bool
  | .IDENT | .ASSIGN | .INT | .FLOAT | .STRING
  | .PLUS | .MINUS | .MODULO | .MULT | .DIV
  | .COMMA | .LPAREN | .TRUE | .FALSE | .NIL
  | .FUNC | .FUNCAPPLY | .STMTS | .EXTERN
  | .EQUAL | .NOT_EQUAL | .LESS | .LESS_EQUAL | .GRTR | .GRTR_EQUAL
  | .NOT | .LOG_AND | .LOG_OR
  | .IF | .WHILE | .RETURN | .BREAK | .CONTINUE => true
  | _ => false

/-- One step of Node.Evaluator: look the token kind up in the dispatch
table (an unregistered kind is the compile-time "unknown operator" error)
and run the producer, which compiles the children through `cp` — except
FuncDefinition, which stores the node and compiles the body only when the
function literal is evaluated. -/
def compileStep (cp : Node → Except Err Compiled) (n : Node) :
    Except Err Compiled :=
  match n.tok with
  | .IDENT => .ok (.lookupVar n.lit)
  | .ASSIGN =>
    match n.children with
    | [] => .error .indexRange
    | lhs :: rest => do
      let names ← assignTargetsOf lhs
      match rest with
      | rhs :: _ => do
        let rc ← cp rhs
        .ok (.assign names rc)
      | [] => .error .indexRange
  | .INT =>
    match parseGoInt n.lit with
    | some i => .ok (.intLit i)
    | Option.none => .error (.literalParse n.lit)
  | .FLOAT =>
    match parseGoFloat n.lit with
    | some q => .ok (.floatLit q)
    | Option.none => .error (.literalParse n.lit)
  | .STRING => .ok (.strLit n.lit)
  | .PLUS => compileBinary cp n .addOp
  | .MINUS =>
    match n.children with
    | [c] => do
      let cc ← cp c
      .ok (.negOp cc)
    | _ => compileBinary cp n .subOp
  | .MODULO => compileBinary cp n .modOp
  | .MULT => compileBinary cp n .mulOp
  | .DIV => compileBinary cp n .divOp
  | .COMMA => (compileListF cp n.children).map .multi
  | .LPAREN => (compileListF cp n.children).map .multi
  | .TRUE => .ok .trueLit
  | .FALSE => .ok .falseLit
  | .NIL => .ok .nilLit
  | .FUNC => .ok (.funcDef n)
  | .FUNCAPPLY =>
    match n.children with
    | fn :: args => do
      let fc ← cp fn
      let acs ← compileListF cp args
      .ok (.funcApply fc acs)
    | [] => .error .indexRange
  | .STMTS => (compileListF cp n.children).map .stmts
  | .EXTERN => .ok .noop
  | .EQUAL => compileBinary cp n .eqOp
  | .NOT_EQUAL => compileBinary cp n .neOp
  | .LESS => compileBinary cp n .ltOp
  | .LESS_EQUAL => compileBinary cp n .leOp
  | .GRTR => compileBinary cp n .gtOp
  | .GRTR_EQUAL => compileBinary cp n .geOp
  | .NOT =>
    match n.children with
    | c :: _ => do
      let cc ← cp c
      .ok (.notOp cc)
    | [] => .error .indexRange
  | .LOG_AND => compileBinary cp n .andOp
  | .LOG_OR => compileBinary cp n .orOp
  | .IF => (compileListF cp n.children).map .condOp
  | .WHILE => compileBinary cp n .loop
  | .RETURN =>
    match n.children with
    | [] => .ok (.retOp Option.none)
    | c :: _ => do
      let cc ← cp c
      .ok (.retOp (some cc))
  | .BREAK => .ok .brkOp
  | .CONTINUE => .ok .contOp
  | _ => .error (.unknownOperator n.lit)

/-- Node.Evaluator, fuel-indexed: fuel bounds tree depth only. -/
def compileF : Nat → Node → Except Err Compiled
  | 0, _ => .error .outOfFuel
  | fuel+1, n => compileStep (fun m => compileF fuel m) n

/-! ## Running compiled evaluators -/

/-- Result of one evaluator call: the ([]Value, error) pair of the Go
Evaluator, with `crash` marking a host-language panic and `spin` marking
fuel exhaustion (the Go code simply has not returned yet). -/
inductive Res where
  | ok (vals : List Value)
  | err (e : Err)
  | crash (e : Err)
  | spin

/-- Result of StandardSingleEval. -/
inductive Res1 where
  | ok (v : Value)
  | err (e : Err)
  | crash (e : Err)
  | spin

/-- Result of StandardBinaryEval. -/
inductive Res2 where
  | ok (l r : Value)
  | err (e : Err)
  | crash (e : Err)
  | spin

/-- StandardSingleEval: evaluate and require exactly one result. -/
def StandardSingleEval (ev : Compiled → Store → Nat → Store × Res)
    (c : Compiled) (st : Store) (sid : Nat) : Store × Res1 :=
  match ev c st sid with
  | (st1, .ok vals) =>
    match vals with
    | [v] => (st1, .ok v)
    | _ => (st1, .err (.singleValueExpected vals.length))
  | (st1, .err e) => (st1, .err e)
  | (st1, .crash e) => (st1, .crash e)
  | (st1, .spin) => (st1, .spin)

/-- StandardBinaryEval: left then right, each a single value. -/
def StandardBinaryEval (ev : Compiled → Store → Nat → Store × Res)
    (l r : Compiled) (st : Store) (sid : Nat) : Store × Res2 :=
  match StandardSingleEval ev l st sid with
  | (st1, .ok lv) =>
    match StandardSingleEval ev r st1 sid with
    | (st2, .ok rv) => (st2, .ok lv rv)
    | (st2, .err e) => (st2, .err e)
    | (st2, .crash e) => (st2, .crash e)
    | (st2, .spin) => (st2, .spin)
  | (st1, .err e) => (st1, .err e)
  | (st1, .crash e) => (st1, .crash e)
  | (st1, .spin) => (st1, .spin)

/-- BinaryNumericOperation applied to two already-evaluated values: both
int64 (wrapping arithmetic; integer division by zero is a Go runtime
panic) or both float64, anything else is the "cannot apply" error.
Floats are modelled as rationals, so float division by zero yields 0 here
where Go produces an IEEE infinity; no claim depends on float division. -/
def numericOperation (lit : String) (opI : Int → Int → Except Err Int)
    (opF : Rat → Rat → Rat) (lv rv : Value) : Res :=
  match lv, rv with
  | .intV a, .intV b =>
    match opI a b with
    | .ok z => .ok [.intV z]
    | .error e => .crash e
  | .floatV a, .floatV b => .ok [.floatV (opF a b)]
  | _, _ => .err (.cannotApplyOp lit)

/-- BinaryIntOperation applied to two already-evaluated values (the `%`
path): int64 only. -/
def intOperation (lit : String) (opI : Int → Int → Except Err Int)
    (lv rv : Value) : Res :=
  match lv, rv with
  | .intV a, .intV b =>
    match opI a b with
    | .ok z => .ok [.intV z]
    | .error e => .crash e
  | _, _ => .err (.cannotApplyOp lit)

/-- ComparisonOperator's tail: turn a comparison outcome into a result. -/
def comparisonResult : CmpRes → Res
  | .ok b => .ok [.boolV b]
  | .err e => .err e
  | .crash e => .crash e

/-- StatementsEvaluator's loop: run children in order, keep only the last
child's results, stop at the first error, and pass any control-signal
result up unchanged, skipping the remaining statements. -/
def runStmts (ev : Compiled → Store → Nat → Store × Res) :
    List Compiled → List Value → Store → Nat → Store × Res
  | [], results, st, _ => (st, .ok results)
  | c :: rest, _, st, sid =>
    match ev c st sid with
    | (st1, .ok r) =>
      if IsControlValue r then (st1, .ok r)
      else runStmts ev rest r st1 sid
    | (st1, .err e) => (st1, .err e)
    | (st1, .crash e) => (st1, .crash e)
    | (st1, .spin) => (st1, .spin)

/-- MultiValueOperator's loop: run children in order, concatenating all
result lists. -/
def runMulti (ev : Compiled → Store → Nat → Store × Res) :
    List Compiled → List Value → Store → Nat → Store × Res
  | [], acc, st, _ => (st, .ok acc)
  | c :: rest, acc, st, sid =>
    match ev c st sid with
    | (st1, .ok r) => runMulti ev rest (acc ++ r) st1 sid
    | (st1, .err e) => (st1, .err e)
    | (st1, .crash e) => (st1, .crash e)
    | (st1, .spin) => (st1, .spin)

/-- ConditionalOperator's loop over condition/branch pairs with an optional
trailing else; `last` carries the previous condition's results, which are
returned when the pairs are exhausted (Go's `return results, nil`). -/
def runCond (ev : Compiled → Store → Nat → Store × Res) :
    List Compiled → List Value → Store → Nat → Store × Res
  | [], last, st, _ => (st, .ok last)
  | [e], _, st, sid => ev e st sid
  | c :: t :: rest, _, st, sid =>
    match ev c st sid with
    | (st1, .ok results) =>
      match results with
      | [one] => if IsTruthy one then ev t st1 sid else runCond ev rest results st1 sid
      | _ => (st1, .err (.singleValueExpected results.length))
    | (st1, .err e) => (st1, .err e)
    | (st1, .crash e) => (st1, .crash e)
    | (st1, .spin) => (st1, .spin)

/-- AssignValues' loop: Set each target in order, stopping at the first
error (earlier assignments persist). -/
def setEach (st : Store) (sid : Nat) :
    List (String × Value) → Store × Option Err
  | [] => (st, Option.none)
  | (n, v) :: rest =>
    match SetVar st sid n v with
    | (st1, .ok _) => setEach st1 sid rest
    | (st1, .error e) => (st1, some e)

/-- FuncApplication: copy every captured reference into the call scope. -/
def SetRefs (st : Store) (sid : Nat) (entries : List (String × Nat)) : Store :=
  entries.foldl (fun s e => SetRef s sid e.1 e.2) st

/-- FuncApplication: pre-set every declared local to nil (Set's results are
discarded in the source). -/
def SetLocalsNil (st : Store) (sid : Nat) (ls : List String) : Store :=
  ls.foldl (fun s l => (SetVar s sid l .nilV).1) st

/-- FuncApplication: bind parameters to argument values (Set's results are
discarded in the source). -/
def SetParams (st : Store) (sid : Nat) (ps : List String) (vs : List Value) :
    Store :=
  (ps.zip vs).foldl (fun s pv => (SetVar s sid pv.1 pv.2).1) st

/-- The captured scope's bindings. -/
def capturedEntries (st : Store) (cap : Nat) : List (String × Nat) :=
  match st.scopes[cap]? with
  | some sd => sd.values
  | Option.none => []

/-- FuncApplication's scope construction: a fresh child of the calling
scope, seeded with the captured references, the locals preset to nil, and
the parameters bound to the argument values. -/
def CallScope (st : Store) (sid cap : Nat) (ls ps : List String)
    (args : List Value) : Store × Nat :=
  let fresh := NewScope st sid
  let st2 := SetRefs fresh.1 fresh.2 (capturedEntries fresh.1 cap)
  let st3 := SetLocalsNil st2 fresh.2 ls
  (SetParams st3 fresh.2 ps args, fresh.2)

/-- FuncDefinition's capture loop: resolve each free variable against the
defining scope `sid` and bind the same cell into the captured scope `cap`. -/
def CaptureFrees (st : Store) (sid cap : Nat) :
    List String → Store × Option Err
  | [] => (st, Option.none)
  | x :: xs =>
    match Reference st sid x with
    | .error _ => (st, some (.captureFailure x))
    | .ok cid => CaptureFrees (SetRef st cap x cid) sid cap xs

/-- One step of evaluation: the body of each producer's closure from
evaluator.go, with `ev` the evaluator for sub-expressions and `fuel` the
remaining fuel for the lazily compiled function bodies. -/
def evalStep (fuel : Nat) (ev : Compiled → Store → Nat → Store × Res)
    (c : Compiled) (st : Store) (sid : Nat) : Store × Res :=
  match c with
  | .lookupVar name =>
    match ValueOf st sid name with
    | .ok v => (st, .ok [v])
    | .error e => (st, .err e)
  | .assign names rhs =>
    match ev rhs st sid with
    | (st1, .ok r) =>
      if names.length ≠ r.length then (st1, .err .countMismatch)
      else
        match setEach st1 sid (names.zip r) with
        | (st2, Option.none) => (st2, .ok r)
        | (st2, some e) => (st2, .err e)
    | (st1, .err e) => (st1, .err e)
    | (st1, .crash e) => (st1, .crash e)
    | (st1, .spin) => (st1, .spin)
  | .intLit i => (st, .ok [.intV i])
  | .floatLit q => (st, .ok [.floatV q])
  | .strLit s => (st, .ok [.strV s])
  | .trueLit => (st, .ok [.boolV true])
  | .falseLit => (st, .ok [.boolV false])
  | .nilLit => (st, .ok [.nilV])
  | .funcDef n =>
    -- In the pipeline ScopeAnalysis runs (and on these paths succeeds)
    -- before compilation, attaching to the node the same Analysis that
    -- funcAnalysisF computes; FuncDefinition reads it here at literal
    -- evaluation time.  A node whose analysis failed would have been left
    -- with a partially filled record (body nil) and this dereference
    -- would be a Go crash.
    match funcAnalysisF fuel n with
    | .error e => (st, .crash e)
    | .ok a =>
      match compileF fuel a.body with
      | .error e => (st, .err e)
      | .ok bodyC =>
        let fresh := NewScope st sid
        match CaptureFrees fresh.1 sid fresh.2 (FreeVariables a) with
        | (st2, some e) => (st2, .err e)
        | (st2, Option.none) =>
          (st2, .ok [.funcV a.parameters a.channels a.locals fresh.2 bodyC])
  | .funcApply fn args =>
    match ev fn st sid with
    | (st1, .ok fr) =>
      match fr with
      | [v] =>
        match v with
        | .funcV ps _chs ls cap bodyC =>
          match runMulti ev args [] st1 sid with
          | (st2, .ok values) =>
            if ps.length ≠ values.length then (st2, .err .argCountMismatch)
            else
              let sc := CallScope st2 sid cap ls ps values
              match ev bodyC sc.1 sc.2 with
              | (st7, .ok result) =>
                if IsControlValue result then (st7, .ok (WrappedValues result))
                else (st7, .ok result)
              | (st7, .err e) => (st7, .err e)
              | (st7, .crash e) => (st7, .crash e)
              | (st7, .spin) => (st7, .spin)
          | (st2, .err e) => (st2, .err e)
          | (st2, .crash e) => (st2, .crash e)
          | (st2, .spin) => (st2, .spin)
        | _ => (st1, .err .cannotApplyNonFunction)
      | _ => (st1, .err .cannotApplyMultiple)
    | (st1, .err e) => (st1, .err (.unableToResolve e))
    | (st1, .crash e) => (st1, .crash e)
    | (st1, .spin) => (st1, .spin)
  | .stmts cs => runStmts ev cs [] st sid
  | .multi cs => runMulti ev cs [] st sid
  | .noop => (st, .ok [])
  | .addOp l r =>
    match StandardBinaryEval ev l r st sid with
    | (st2, .ok lv rv) =>
      match lv, rv with
      | .strV a, .strV b => (st2, .ok [.strV (a ++ b)])
      | _, _ =>
        (st2, numericOperation "+" (fun a b => .ok (wrap64 (a + b))) (· + ·) lv rv)
    | (st2, .err e) => (st2, .err e)
    | (st2, .crash e) => (st2, .crash e)
    | (st2, .spin) => (st2, .spin)
  | .subOp l r =>
    match StandardBinaryEval ev l r st sid with
    | (st2, .ok lv rv) =>
      (st2, numericOperation "-" (fun a b => .ok (wrap64 (a - b))) (· - ·) lv rv)
    | (st2, .err e) => (st2, .err e)
    | (st2, .crash e) => (st2, .crash e)
    | (st2, .spin) => (st2, .spin)
  | .negOp e =>
    match StandardSingleEval ev e st sid with
    | (st1, .ok v) =>
      match v with
      | .intV i => (st1, .ok [.intV (wrap64 (-1 * i))])
      | .floatV q => (st1, .ok [.floatV (-q)])
      | _ => (st1, .err .cannotNegate)
    | (st1, .err er) => (st1, .err er)
    | (st1, .crash er) => (st1, .crash er)
    | (st1, .spin) => (st1, .spin)
  | .mulOp l r =>
    match StandardBinaryEval ev l r st sid with
    | (st2, .ok lv rv) =>
      (st2, numericOperation "*" (fun a b => .ok (wrap64 (a * b))) (· * ·) lv rv)
    | (st2, .err e) => (st2, .err e)
    | (st2, .crash e) => (st2, .crash e)
    | (st2, .spin) => (st2, .spin)
  | .divOp l r =>
    match StandardBinaryEval ev l r st sid with
    | (st2, .ok lv rv) =>
      (st2, numericOperation "/"
        (fun a b =>
          if b = 0 then .error .integerDivideByZero
          else .ok (wrap64 (Int.tdiv a b)))
        (· / ·) lv rv)
    | (st2, .err e) => (st2, .err e)
    | (st2, .crash e) => (st2, .crash e)
    | (st2, .spin) => (st2, .spin)
  | .modOp l r =>
    match StandardBinaryEval ev l r st sid with
    | (st2, .ok lv rv) =>
      (st2, intOperation "%"
        (fun a b =>
          if b = 0 then .error .integerDivideByZero
          else .ok (Int.tmod a b)) lv rv)
    | (st2, .err e) => (st2, .err e)
    | (st2, .crash e) => (st2, .crash e)
    | (st2, .spin) => (st2, .spin)
  | .eqOp l r =>
    match StandardBinaryEval ev l r st sid with
    | (st2, .ok lv rv) => (st2, comparisonResult (EqualValues lv rv))
    | (st2, .err e) => (st2, .err e)
    | (st2, .crash e) => (st2, .crash e)
    | (st2, .spin) => (st2, .spin)
  | .neOp l r =>
    match StandardBinaryEval ev l r st sid with
    | (st2, .ok lv rv) => (st2, comparisonResult (NotEqualValues lv rv))
    | (st2, .err e) => (st2, .err e)
    | (st2, .crash e) => (st2, .crash e)
    | (st2, .spin) => (st2, .spin)
  | .ltOp l r =>
    match StandardBinaryEval ev l r st sid with
    | (st2, .ok lv rv) => (st2, comparisonResult (LessThanValue lv rv))
    | (st2, .err e) => (st2, .err e)
    | (st2, .crash e) => (st2, .crash e)
    | (st2, .spin) => (st2, .spin)
  | .leOp l r =>
    match StandardBinaryEval ev l r st sid with
    | (st2, .ok lv rv) => (st2, comparisonResult (LessThanEqualValue lv rv))
    | (st2, .err e) => (st2, .err e)
    | (st2, .crash e) => (st2, .crash e)
    | (st2, .spin) => (st2, .spin)
  | .gtOp l r =>
    match StandardBinaryEval ev l r st sid with
    | (st2, .ok lv rv) => (st2, comparisonResult (GreaterThanValue lv rv))
    | (st2, .err e) => (st2, .err e)
    | (st2, .crash e) => (st2, .crash e)
    | (st2, .spin) => (st2, .spin)
  | .geOp l r =>
    match StandardBinaryEval ev l r st sid with
    | (st2, .ok lv rv) => (st2, comparisonResult (GreaterThanEqualValue lv rv))
    | (st2, .err e) => (st2, .err e)
    | (st2, .crash e) => (st2, .crash e)
    | (st2, .spin) => (st2, .spin)
  | .notOp e =>
    match StandardSingleEval ev e st sid with
    | (st1, .ok v) => (st1, .ok [.boolV (!IsTruthy v)])
    | (st1, .err er) => (st1, .err er)
    | (st1, .crash er) => (st1, .crash er)
    | (st1, .spin) => (st1, .spin)
  | .andOp l r =>
    match StandardSingleEval ev l st sid with
    | (st1, .ok lv) =>
      if !IsTruthy lv then (st1, .ok [lv])    -- short-circuit on a falsy left
      else
        match StandardSingleEval ev r st1 sid with
        | (st2, .ok rv) => (st2, .ok [rv])
        | (st2, .err e) => (st2, .err e)
        | (st2, .crash e) => (st2, .crash e)
        | (st2, .spin) => (st2, .spin)
    | (st1, .err e) => (st1, .err e)
    | (st1, .crash e) => (st1, .crash e)
    | (st1, .spin) => (st1, .spin)
  | .orOp l r =>
    match StandardSingleEval ev l st sid with
    | (st1, .ok lv) =>
      if IsTruthy lv then (st1, .ok [lv])     -- short-circuit on a truthy left
      else
        match StandardSingleEval ev r st1 sid with
        | (st2, .ok rv) => (st2, .ok [rv])
        | (st2, .err e) => (st2, .err e)
        | (st2, .crash e) => (st2, .crash e)
        | (st2, .spin) => (st2, .spin)
    | (st1, .err e) => (st1, .err e)
    | (st1, .crash e) => (st1, .crash e)
    | (st1, .spin) => (st1, .spin)
  | .condOp evals => runCond ev evals [] st sid
  | .loop cnd bdy =>
    match StandardSingleEval ev cnd st sid with
    | (st1, .ok condVal) =>
      if !IsTruthy condVal then (st1, .ok [condVal])
      else
        match ev bdy st1 sid with
        | (st2, .ok bodyResults) =>
          if IsBreakValue bodyResults then (st2, .ok (WrappedValues bodyResults))
          else if IsReturnValue bodyResults then (st2, .ok bodyResults)
          else ev (.loop cnd bdy) st2 sid
        | (st2, .err e) => (st2, .err e)
        | (st2, .crash e) => (st2, .crash e)
        | (st2, .spin) => (st2, .spin)
    | (st1, .err e) => (st1, .err e)
    | (st1, .crash e) => (st1, .crash e)
    | (st1, .spin) => (st1, .spin)
  | .retOp arg =>
    match arg with
    | Option.none => (st, .ok (ReturnValue []))
    | some e =>
      match ev e st sid with
      | (st1, .ok vals) => (st1, .ok (ReturnValue vals))
      | (st1, .err er) => (st1, .err er)
      | (st1, .crash er) => (st1, .crash er)
      | (st1, .spin) => (st1, .spin)
  | .brkOp => (st, .ok BreakValue)
  | .contOp => (st, .ok ContinueValue)

/-- Running a compiled evaluator against a scope.  The Go evaluator is a
set of mutually recursive closures; the fuel only bounds recursion depth
(loop iterations and function calls), so with ample fuel `evalC` computes
exactly what the closures compute, and `spin` corresponds to an execution
that has not terminated yet. -/
def evalC : Nat → Compiled → Store → Nat → Store × Res
  | 0, _, st, _ => (st, .spin)
  | fuel+1, c, st, sid =>
    evalStep fuel (fun c' st' sid' => evalC fuel c' st' sid') c st sid

theorem evalC_succ (fuel : Nat) (c : Compiled) (st : Store) (sid : Nat) :
    evalC (fuel+1) c st sid =
      evalStep fuel (fun c' st' sid' => evalC fuel c' st' sid') c st sid := rfl

/-! ## Concrete test programs

Syntax trees as the parser would hand them to the compile package
(FUNCAPPLY/METHAPPLY/STMTS literals follow parse/transforms.go). -/

/-- An identifier node. -/
def nId (s : String) : Node := .mk .IDENT s []

/-- An integer literal node. -/
def nInt (s : String) : Node := .mk .INT s []

/-- An assignment node (children: lhs, rhs). -/
def nAsn (l r : Node) : Node := .mk .ASSIGN ":=" [l, r]

/-- A statement-list node. -/
def nStmts (cs : List Node) : Node := .mk .STMTS "stmts" cs

/-- Body of the C1 closure: `extern x; x := x + 1; return x`. -/
def fBody : Node := nStmts
  [ .mk .EXTERN "extern" [nId "x"]
  , nAsn (nId "x") (.mk .PLUS "+" [nId "x", nInt "1"])
  , .mk .RETURN "return" [nId "x"] ]

/-- `func() [] { extern x; x := x + 1; return x }`. -/
def fNode : Node := .mk .FUNC "func" [.mk .LPAREN "(" [], .mk .LSQR "[" [], fBody]

/-- `x := 1; f := func(){ extern x; x := x + 1; return x }; a := f(); b := f()`. -/
def progC1 : Node := nStmts
  [ nAsn (nId "x") (nInt "1")
  , nAsn (nId "f") fNode
  , nAsn (nId "a") (.mk .FUNCAPPLY "f-apply" [nId "f"])
  , nAsn (nId "b") (.mk .FUNCAPPLY "f-apply" [nId "f"]) ]

/-- The C1 program, compiled and run. -/
def runC1 : Except Err (Store × Res) :=
  (compileF 20 progC1).map (fun c => evalC 40 c GlobalStore 0)

/-- A one-scope store binding x to a cell holding int64 1 (the state after
`x := 1` at top level). -/
def c1Store : Store := ⟨[⟨[("x", 0)], Option.none⟩], [.intV 1]⟩

/-- `v := while true { break }`. -/
def progC2 : Node :=
  nStmts [nAsn (nId "v") (.mk .WHILE "while" [.mk .TRUE "true" [], nStmts [.mk .BREAK "break" []]])]

/-- The evaluator tree progC2 compiles to. -/
def progC2c : Compiled := .stmts [.assign ["v"] (.loop .trueLit (.stmts [.brkOp]))]

/-- `func() [] { break }`. -/
def brFunc : Node :=
  .mk .FUNC "func" [.mk .LPAREN "(" [], .mk .LSQR "[" [], nStmts [.mk .BREAK "break" []]]

/-- `f := func(){ break }; f()`. -/
def progC3 : Node := nStmts [nAsn (nId "f") brFunc, .mk .FUNCAPPLY "f-apply" [nId "f"]]

/-- The C3 program, compiled and run. -/
def runC3 : Except Err (Store × Res) :=
  (compileF 20 progC3).map (fun c => evalC 40 c GlobalStore 0)

/-- `func() [] { for }` — a FOR construct (no evaluator entry) inside a
function body. -/
def forFunc : Node :=
  .mk .FUNC "func" [.mk .LPAREN "(" [], .mk .LSQR "[" [], nStmts [.mk .FOR "for" []]]

/-- `x := 1; f := func(){ for }`. -/
def progC7 : Node := nStmts [nAsn (nId "x") (nInt "1"), nAsn (nId "f") forFunc]

/-- The evaluator tree progC7 compiles to: the unsupported FOR inside the
function body is NOT compiled here. -/
def progC7c : Compiled := .stmts [.assign ["x"] (.intLit 1), .assign ["f"] (.funcDef forFunc)]

/-- The C7 program, compiled and run. -/
def runC7 : Except Err (Store × Res) :=
  (compileF 20 progC7).map (fun c => evalC 40 c GlobalStore 0)

/-- `i := 0; while i < 3 { i := i + 1; continue; i := i + 100 }`. -/
def progC8 : Node := nStmts
  [ nAsn (nId "i") (nInt "0")
  , .mk .WHILE "while" [ .mk .LESS "<" [nId "i", nInt "3"]
    , nStmts [ nAsn (nId "i") (.mk .PLUS "+" [nId "i", nInt "1"])
             , .mk .CONTINUE "continue" []
             , nAsn (nId "i") (.mk .PLUS "+" [nId "i", nInt "100"]) ] ] ]

/-- The C8 program, compiled and run. -/
def runC8 : Except Err (Store × Res) :=
  (compileF 20 progC8).map (fun c => evalC 60 c GlobalStore 0)

/-- `func() [] { extern z; z := z + 1; w }` used for the C6 witness. -/
def c6Fn : Node := .mk .FUNC "func" [.mk .LPAREN "(" [], .mk .LSQR "[" [],
  nStmts [ .mk .EXTERN "extern" [nId "z"]
         , nAsn (nId "z") (.mk .PLUS "+" [nId "z", nInt "1"])
         , nId "w" ]]

/-! ## Supporting lemmas about the scope arena -/

/-- Scope parents always precede their scopes in the arena (Go guarantees
the same acyclicity through pointer creation order: NewScope links only to
already existing scopes). -/
def ParentsDec (st : Store) : Prop :=
  ∀ (i : Nat) (sd : Variables), st.scopes[i]? = some sd →
    ∀ p, sd.parent = some p → p < i

lemma assocFind_assocSet (l : List (String × Nat)) (x y : String) (cid : Nat) :
    assocFind (assocSet l x cid) y = if x = y then some cid else assocFind l y := by
  induction l with
  | nil => by_cases h : x = y <;> simp [assocSet, assocFind, h]
  | cons kv rest ih =>
    obtain ⟨k, v⟩ := kv
    by_cases hkx : k = x
    · subst hkx
      by_cases hky : k = y <;> simp [assocSet, assocFind, hky]
    · by_cases hky : k = y
      · subst hky
        have hxk : ¬ (x = k) := fun h => hkx h.symm
        simp [assocSet, assocFind, hkx, hxk]
      · simp [assocSet, assocFind, hkx, hky, ih]

lemma ReferenceAux_agree (st st' : Store) (hdec : ParentsDec st) :
    ∀ gas sid name, (∀ j, j ≤ sid → st'.scopes[j]? = st.scopes[j]?) →
      ReferenceAux st' gas sid name = ReferenceAux st gas sid name := by
  intro gas
  induction gas with
  | zero => intro sid name _; rfl
  | succ g ih =>
    intro sid name hag
    have hsame := hag sid le_rfl
    cases hsd : st.scopes[sid]? with
    | none =>
      have hsd' : st'.scopes[sid]? = Option.none := by rw [hsame, hsd]
      simp only [ReferenceAux, hsd, hsd']
    | some sd =>
      have hsd' : st'.scopes[sid]? = some sd := by rw [hsame, hsd]
      simp only [ReferenceAux, hsd, hsd']
      cases hfind : assocFind sd.values name with
      | some cid => simp
      | none =>
        simp only
        cases hp : sd.parent with
        | none => simp
        | some p =>
          simp only
          exact ih p name (fun j hj => hag j (le_trans hj (le_of_lt (hdec sid sd hsd p hp))))

lemma ReferenceAux_gas (st : Store) (hdec : ParentsDec st) :
    ∀ gas₁ gas₂ sid name, sid < gas₁ → sid < gas₂ →
      ReferenceAux st gas₁ sid name = ReferenceAux st gas₂ sid name := by
  intro gas₁
  induction gas₁ with
  | zero => intro gas₂ sid name h _; exact absurd h (Nat.not_lt_zero _)
  | succ g ih =>
    intro gas₂ sid name h₁ h₂
    cases gas₂ with
    | zero => exact absurd h₂ (Nat.not_lt_zero _)
    | succ g₂ =>
      cases hsd : st.scopes[sid]? with
      | none => simp only [ReferenceAux, hsd]
      | some sd =>
        simp only [ReferenceAux, hsd]
        cases hfind : assocFind sd.values name with
        | some cid => simp
        | none =>
          simp only
          cases hp : sd.parent with
          | none => simp
          | some p =>
            simp only
            have hpsid := hdec sid sd hsd p hp
            exact ih g₂ p name (by omega) (by omega)

lemma Reference_congr (st st' : Store) (hdec : ParentsDec st) (sid : Nat)
    (hsid : sid < st.scopes.length) (hlen : st.scopes.length ≤ st'.scopes.length)
    (hag : ∀ j, j ≤ sid → st'.scopes[j]? = st.scopes[j]?) (name : String) :
    Reference st' sid name = Reference st sid name := by
  unfold Reference
  rw [ReferenceAux_agree st st' hdec st'.scopes.length sid name hag]
  exact ReferenceAux_gas st hdec _ _ sid name (lt_of_lt_of_le hsid hlen) hsid

lemma SetRef_cells (st : Store) (cap : Nat) (x : String) (cid : Nat) :
    (SetRef st cap x cid).cells = st.cells := by
  unfold SetRef; cases st.scopes[cap]? <;> rfl

lemma SetRef_length (st : Store) (cap : Nat) (x : String) (cid : Nat) :
    (SetRef st cap x cid).scopes.length = st.scopes.length := by
  unfold SetRef; cases st.scopes[cap]? <;> simp

lemma SetRef_scopes_ne (st : Store) (cap : Nat) (x : String) (cid : Nat)
    (j : Nat) (hj : j ≠ cap) :
    (SetRef st cap x cid).scopes[j]? = st.scopes[j]? := by
  unfold SetRef
  cases st.scopes[cap]? with
  | none => rfl
  | some sd => exact List.getElem?_set_ne (fun h => hj h.symm)

lemma capturedEntries_SetRef_self (st : Store) (cap : Nat) (x : String) (cid : Nat)
    (h : cap < st.scopes.length) :
    capturedEntries (SetRef st cap x cid) cap = assocSet (capturedEntries st cap) x cid := by
  cases hsd : st.scopes[cap]? with
  | none =>
    exfalso
    rw [List.getElem?_eq_none_iff] at hsd
    omega
  | some sd =>
    unfold SetRef capturedEntries
    rw [hsd]
    simp only
    rw [List.getElem?_set_self h]

lemma capturedEntries_SetRef_find_ne (st : Store) (cap : Nat) (x : String) (cid : Nat)
    (y : String) (hyx : x ≠ y) :
    assocFind (capturedEntries (SetRef st cap x cid) cap) y =
      assocFind (capturedEntries st cap) y := by
  by_cases h : cap < st.scopes.length
  · rw [capturedEntries_SetRef_self st cap x cid h, assocFind_assocSet]
    simp [hyx]
  · have hnone : st.scopes[cap]? = Option.none := by
      rw [List.getElem?_eq_none_iff]; omega
    unfold SetRef
    rw [hnone]


lemma NewScope_cells (st : Store) (sid : Nat) : (NewScope st sid).1.cells = st.cells := rfl

lemma NewScope_snd (st : Store) (sid : Nat) : (NewScope st sid).2 = st.scopes.length := rfl

lemma NewScope_length (st : Store) (sid : Nat) :
    (NewScope st sid).1.scopes.length = st.scopes.length + 1 := by
  simp [NewScope]

lemma NewScope_scopes_lt (st : Store) (sid : Nat) (j : Nat) (hj : j < st.scopes.length) :
    (NewScope st sid).1.scopes[j]? = st.scopes[j]? := by
  show (st.scopes ++ [⟨[], some sid⟩])[j]? = st.scopes[j]?
  rw [List.getElem?_append]
  simp [hj]

lemma ParentsDec_NewScope (st : Store) (sid : Nat) (hdec : ParentsDec st)
    (hsid : sid < st.scopes.length) : ParentsDec (NewScope st sid).1 := by
  intro i sd h p hp
  by_cases hi : i < st.scopes.length
  · rw [NewScope_scopes_lt st sid i hi] at h
    exact hdec i sd h p hp
  · replace h : (st.scopes ++ [⟨[], some sid⟩])[i]? = some sd := h
    rw [List.getElem?_append] at h
    simp only [hi, if_false] at h
    have hlt : i - st.scopes.length < 1 := by
      rcases List.getElem?_eq_some_iff.mp h with ⟨hlt, _⟩
      simpa using hlt
    have h0 : i - st.scopes.length = 0 := by omega
    rw [h0] at h
    simp only [List.getElem?_cons_zero, Option.some.injEq] at h
    have hpar : sd.parent = some sid := by rw [← h]
    rw [hpar] at hp
    injection hp with hps
    omega

lemma Reference_NewScope (st : Store) (sid : Nat) (hdec : ParentsDec st)
    (hsid : sid < st.scopes.length) (name : String) :
    Reference (NewScope st sid).1 sid name = Reference st sid name := by
  apply Reference_congr st (NewScope st sid).1 hdec sid hsid
  · rw [NewScope_length]; omega
  · intro j hj; exact NewScope_scopes_lt st sid j (by omega)

lemma CaptureFrees_preserve (sid cap : Nat) :
    ∀ (xs : List String) (st' st2 : Store),
      CaptureFrees st' sid cap xs = (st2, Option.none) →
      ∀ y, y ∉ xs →
        assocFind (capturedEntries st2 cap) y = assocFind (capturedEntries st' cap) y := by
  intro xs
  induction xs with
  | nil =>
    intro st' st2 h y _
    simp only [CaptureFrees, Prod.mk.injEq] at h
    rw [h.1]
  | cons x xs ih =>
    intro st' st2 h y hy
    simp only [CaptureFrees] at h
    cases href : Reference st' sid x with
    | error e => rw [href] at h; simp at h
    | ok cid =>
      rw [href] at h
      simp only at h
      have hyne : x ≠ y := fun hxy => hy (by rw [← hxy]; exact List.mem_cons_self x xs)
      have hyxs : y ∉ xs := fun hm => hy (List.mem_cons_of_mem x hm)
      rw [ih (SetRef st' cap x cid) st2 h y hyxs]
      exact capturedEntries_SetRef_find_ne st' cap x cid y hyne

lemma CaptureFrees_spec (st1 : Store) (sid cap : Nat) (hdec : ParentsDec st1)
    (hsc : sid < cap) (hcap : cap < st1.scopes.length) :
    ∀ (frees : List String) (st' st2 : Store),
      st'.scopes.length = st1.scopes.length →
      (∀ j, j ≠ cap → st'.scopes[j]? = st1.scopes[j]?) →
      st'.cells = st1.cells →
      CaptureFrees st' sid cap frees = (st2, Option.none) →
      st2.cells = st1.cells ∧ st2.scopes.length = st1.scopes.length ∧
        (∀ j, j ≠ cap → st2.scopes[j]? = st1.scopes[j]?) ∧
        (∀ x ∈ frees, ∃ cid, Reference st1 sid x = .ok cid ∧
          assocFind (capturedEntries st2 cap) x = some cid) := by
  intro frees
  induction frees with
  | nil =>
    intro st' st2 hlen hag hcells h
    simp only [CaptureFrees, Prod.mk.injEq] at h
    rw [← h.1]
    exact ⟨hcells, hlen, hag, by simp⟩
  | cons x xs ih =>
    intro st' st2 hlen hag hcells h
    simp only [CaptureFrees] at h
    cases href : Reference st' sid x with
    | error e => rw [href] at h; simp at h
    | ok cid =>
      rw [href] at h
      simp only at h
      have hlen2 : (SetRef st' cap x cid).scopes.length = st1.scopes.length := by
        rw [SetRef_length]; exact hlen
      have hag2 : ∀ j, j ≠ cap → (SetRef st' cap x cid).scopes[j]? = st1.scopes[j]? := by
        intro j hj; rw [SetRef_scopes_ne st' cap x cid j hj]; exact hag j hj
      have hcells2 : (SetRef st' cap x cid).cells = st1.cells := by
        rw [SetRef_cells]; exact hcells
      obtain ⟨c1, c2, c3, c4⟩ := ih (SetRef st' cap x cid) st2 hlen2 hag2 hcells2 h
      refine ⟨c1, c2, c3, ?_⟩
      intro y hy
      have href1 : Reference st' sid x = Reference st1 sid x := by
        apply Reference_congr st1 st' hdec sid (lt_trans hsc hcap) (le_of_eq hlen.symm)
        intro j hj
        exact hag j (by omega)
      rcases List.mem_cons.mp hy with hxy | hyxs
      · subst hxy
        by_cases hmem : y ∈ xs
        · exact c4 y hmem
        · refine ⟨cid, ?_, ?_⟩
          · rw [← href1]; exact href
          · rw [CaptureFrees_preserve sid cap xs (SetRef st' cap y cid) st2 h y hmem]
            rw [capturedEntries_SetRef_self st' cap y cid (by omega : cap < st'.scopes.length)]
            rw [assocFind_assocSet]
            simp
      · exact c4 y hyxs


/-! ## Claim theorems -/

/-- C1: closure capture is by shared cell.  General part: whenever
evaluating a function literal succeeds, every name in the function's
free-variable set is bound in the returned closure's captured scope to
exactly the cell `Reference` finds in the defining scope (no new cells are
allocated).  Concrete part: in
`x := 1; f := func(){ extern x; x := x + 1; return x }; a := f(); b := f()`
the second invocation observes the first invocation's write (a = 2,
b = 3) and the defining scope observes both (x = 3): two invocations of
one closure instance share state with the defining scope. -/
theorem C1_closure_capture_by_reference :
    (∀ (fuel : Nat) (nd : Node) (st : Store) (sid : Nat) (a : Analysis)
        (st' : Store) (vs : List Value),
      ParentsDec st → sid < st.scopes.length →
      funcAnalysisF fuel nd = .ok a →
      evalC (fuel+1) (.funcDef nd) st sid = (st', .ok vs) →
      st'.cells = st.cells ∧
      ∃ bodyC, compileF fuel a.body = .ok bodyC ∧
        vs = [.funcV a.parameters a.channels a.locals st.scopes.length bodyC] ∧
        ∀ x ∈ FreeVariables a, ∃ cid, Reference st sid x = .ok cid ∧
          assocFind (capturedEntries st' st.scopes.length) x = some cid) ∧
    runC1.map (fun r => r.2) = .ok (.ok [.intV 3]) ∧
    runC1.map (fun r => ValueOf r.1 0 "a") = .ok (.ok (.intV 2)) ∧
    runC1.map (fun r => ValueOf r.1 0 "b") = .ok (.ok (.intV 3)) ∧
    runC1.map (fun r => ValueOf r.1 0 "x") = .ok (.ok (.intV 3)) := by
  refine ⟨?_, rfl, rfl, rfl, rfl⟩
  intro fuel nd st sid a st' vs hdec hsid hA hE
  rw [evalC_succ] at hE
  simp only [evalStep, hA] at hE
  cases hc : compileF fuel a.body with
  | error e => simp only [hc] at hE; simp at hE
  | ok bodyC =>
    simp only [hc] at hE
    rcases hcf : CaptureFrees (NewScope st sid).1 sid (NewScope st sid).2 (FreeVariables a)
      with ⟨st2, oe⟩
    rw [hcf] at hE
    cases oe with
    | some e => simp at hE
    | none =>
      simp only [Prod.mk.injEq, Res.ok.injEq] at hE
      obtain ⟨hst, hvs⟩ := hE
      subst hst
      have hdec1 := ParentsDec_NewScope st sid hdec hsid
      obtain ⟨o1, o2, o3, o4⟩ :=
        CaptureFrees_spec (NewScope st sid).1 sid (NewScope st sid).2 hdec1
          (by rw [NewScope_snd]; exact hsid)
          (by rw [NewScope_snd, NewScope_length]; omega)
          (FreeVariables a) (NewScope st sid).1 st2 rfl (fun _ _ => rfl) rfl hcf
      constructor
      · rw [o1, NewScope_cells]
      · refine ⟨bodyC, rfl, ?_, ?_⟩
        · rw [← hvs, NewScope_snd]
        · intro x hx
          obtain ⟨cid, hr, hb⟩ := o4 x hx
          refine ⟨cid, ?_, ?_⟩
          · rw [← Reference_NewScope st sid hdec hsid x]; exact hr
          · rw [NewScope_snd] at hb; exact hb

/-- C1 witness: instantiating the capture theorem at `fNode` evaluated in
a one-scope store binding x to cell 0 holding int64 1: the closure's
captured scope binds x to that very cell. -/
theorem C1_closure_capture_witness :
    ParentsDec c1Store ∧ 0 < c1Store.scopes.length ∧
    ∃ cid, Reference c1Store 0 "x" = .ok cid ∧
      assocFind (capturedEntries (evalC 31 (.funcDef fNode) c1Store 0).1
        c1Store.scopes.length) "x" = some cid := by
  have hdec : ParentsDec c1Store := by
    intro i sd h p hp
    cases i with
    | zero =>
      simp only [c1Store, List.getElem?_cons_zero, Option.some.injEq] at h
      rw [← h] at hp
      simp at hp
    | succ n => simp [c1Store] at h
  refine ⟨hdec, by decide, ?_⟩
  obtain ⟨-, bodyC, -, -, hfree⟩ :=
    C1_closure_capture_by_reference.1 30 fNode c1Store 0 _ _ _ hdec (by decide) rfl rfl
  exact hfree "x" (by decide)

/-- C2: the code evaluated at the failing input.  The loop does stop on a
break signal and return its unwrapped carried values — but a plain break
carries no values, so `while true { break }` yields the empty value list,
and the enclosing assignment `v := while true { break }` fails with the
left/right count-mismatch error instead of producing the documented
`false`. -/
theorem C2_loop_break_code_bug :
    compileF 20 progC2 = .ok progC2c ∧
    (evalC 20 progC2c GlobalStore 0).2 = .err .countMismatch ∧
    (evalC 20 (.loop .trueLit (.stmts [.brkOp])) GlobalStore 0).2 = .ok [] :=
  ⟨rfl, rfl, rfl⟩

/-- C5: the code evaluated at the failing inputs.  Division and modulo of
any int64 by zero reach Go's `a / b` and `a % b` with no zero check, a
host-language runtime panic (modelled as `Res.crash`), not an ordinary
propagated error. -/
theorem C5_divide_by_zero_code_bug : ∀ a : Int,
    (evalC 10 (.divOp (.intLit a) (.intLit 0)) GlobalStore 0).2
      = .crash .integerDivideByZero ∧
    (evalC 10 (.modOp (.intLit a) (.intLit 0)) GlobalStore 0).2
      = .crash .integerDivideByZero :=
  fun _ => ⟨rfl, rfl⟩

/-- C9: an equality or ordering comparison in which either operand is nil
does not return a boolean or an error: `TypeOf` yields the nil
reflect.Type and calling Kind() on it is a Go nil-pointer panic, modelled
as the crash outcome — both at the level of the comparison functions and
when the evaluator runs `nil == 1` or `1 < nil`. -/
theorem C9_nil_comparison_crashes :
    (∀ l r : Value, l = .nilV ∨ r = .nilV →
      EqualValues l r = .crash .nilKindDeref ∧
      NotEqualValues l r = .crash .nilKindDeref ∧
      LessThanValue l r = .crash .nilKindDeref ∧
      LessThanEqualValue l r = .crash .nilKindDeref ∧
      GreaterThanValue l r = .crash .nilKindDeref ∧
      GreaterThanEqualValue l r = .crash .nilKindDeref) ∧
    (evalC 10 (.eqOp .nilLit (.intLit 1)) GlobalStore 0).2 = .crash .nilKindDeref ∧
    (evalC 10 (.ltOp (.intLit 1) .nilLit) GlobalStore 0).2 = .crash .nilKindDeref := by
  refine ⟨?_, rfl, rfl⟩
  intro l r h
  rcases h with h | h <;> subst h
  · cases r <;>
      simp [EqualValues, NotEqualValues, LessThanValue, LessThanEqualValue,
        GreaterThanValue, GreaterThanEqualValue, orderingValue, checkCompareKinds,
        kindsOf, TypeOf]
  · cases l <;>
      simp [EqualValues, NotEqualValues, LessThanValue, LessThanEqualValue,
        GreaterThanValue, GreaterThanEqualValue, orderingValue, checkCompareKinds,
        kindsOf, TypeOf]

/-- C9 witness: the comparison functions at the concrete pair (nil, 1). -/
theorem C9_nil_comparison_witness :
    EqualValues .nilV (.intV 1) = .crash .nilKindDeref ∧
    NotEqualValues .nilV (.intV 1) = .crash .nilKindDeref ∧
    LessThanValue .nilV (.intV 1) = .crash .nilKindDeref ∧
    LessThanEqualValue .nilV (.intV 1) = .crash .nilKindDeref ∧
    GreaterThanValue .nilV (.intV 1) = .crash .nilKindDeref ∧
    GreaterThanEqualValue .nilV (.intV 1) = .crash .nilKindDeref :=
  C9_nil_comparison_crashes.1 .nilV (.intV 1) (Or.inl rfl)

/-- C10: truthiness is false for exactly nil and the boolean false; the
int64 0, the float64 0.0, the empty string and every function value are
truthy, and the logical-not evaluator on the truthy int64 0 accordingly
returns false. -/
theorem C10_truthiness :
    (∀ v, IsTruthy v = false ↔ v = .nilV ∨ v = .boolV false) ∧
    IsTruthy (.intV 0) = true ∧ IsTruthy (.floatV 0) = true ∧
    IsTruthy (.strV "") = true ∧
    (∀ ps chs ls cap bodyC, IsTruthy (.funcV ps chs ls cap bodyC) = true) ∧
    (evalC 10 (.notOp (.intLit 0)) GlobalStore 0).2 = .ok [.boolV false] := by
  refine ⟨?_, rfl, rfl, rfl, fun _ _ _ _ _ => rfl, rfl⟩
  intro v
  cases v <;> simp [IsTruthy]

/-- C3 counterexample: the claim says a break-kind signal escaping a
function body propagates unchanged to the caller; in fact applying
`func(){ break }` yields the empty value list — the application checks
IsControlValue (any control kind) and unwraps, so no break signal reaches
the caller. -/
theorem C3_break_propagation_counterexample :
    runC3.map (fun r => r.2) = .ok (.ok []) ∧ IsBreakValue [] = false :=
  ⟨rfl, rfl⟩

/-- C3 amended: for every function application whose body evaluation
yields a control signal of ANY kind — return, break or continue — the
call's result is the signal's carried value list (`WrappedValues`); the
control tag never reaches the caller.  For return-kind signals this is
the carried return values, as the original claim states; break and
continue carry no values, so such a call yields the empty list instead of
propagating the signal. -/
theorem C3_application_unwraps_all_control :
    ∀ (fuel : Nat) (fnC : Compiled) (argCs : List Compiled) (st : Store) (sid : Nat)
        (st1 : Store) (ps chs ls : List String) (cap : Nat) (bodyC : Compiled)
        (st2 : Store) (args : List Value) (st7 : Store) (bvals : List Value),
      evalC fuel fnC st sid = (st1, .ok [.funcV ps chs ls cap bodyC]) →
      runMulti (fun c' st' sid' => evalC fuel c' st' sid') argCs [] st1 sid
        = (st2, .ok args) →
      ps.length = args.length →
      evalC fuel bodyC (CallScope st2 sid cap ls ps args).1
        (CallScope st2 sid cap ls ps args).2 = (st7, .ok bvals) →
      IsControlValue bvals = true →
      evalC (fuel+1) (.funcApply fnC argCs) st sid
        = (st7, .ok (WrappedValues bvals)) := by
  intro fuel fnC argCs st sid st1 ps chs ls cap bodyC st2 args st7 bvals h1 h2 hlen h3 hctl
  rw [evalC_succ]
  simp only [evalStep, h1, h2, hlen, h3, hctl, ne_eq, not_true_eq_false, if_false,
    ite_true, if_true]

/-- C3 witness: applying the break-bodied function literal directly — the
body yields a break signal, and the application's result is its (empty)
carried value list. -/
theorem C3_application_unwraps_witness :
    (evalC 31 (.funcApply (.funcDef brFunc) []) GlobalStore 0).2 = .ok [] := by
  have h := C3_application_unwraps_all_control 30 (.funcDef brFunc) [] GlobalStore 0
    _ _ _ _ _ _ _ _ _ _ rfl rfl rfl rfl rfl
  rw [h]
  rfl


/-- A one-scope store binding x to a cell holding int64 1, for the C4
witness. -/
def c4Store : Store := ⟨[⟨[("x", 0)], Option.none⟩], [.intV 1]⟩
/-- C4: Variables.Set enforces type stability.  With the scope's map entry
for the name: absent → a fresh cell holding the value is bound,
unconditionally; present but holding nil → likewise rebound to a fresh
cell holding the value (the nil-typed local "learns" its type); present
holding a non-nil value of a different dynamic type → the type-mismatch
error is returned and the whole store is left untouched; present holding
a non-nil value of the same dynamic type → the value is written through
the existing (possibly shared) cell, the scope map unchanged. -/
theorem C4_set_type_stability :
    ∀ (st : Store) (sid : Nat) (name : String) (val : Value) (sd : Variables),
      st.scopes[sid]? = some sd →
      ((assocFind sd.values name = Option.none →
          (SetVar st sid name val).2 = .ok val ∧
          LocalValue (SetVar st sid name val).1 sid name = some val) ∧
       (∀ cid cur, assocFind sd.values name = some cid → st.cells[cid]? = some cur →
          ((IsNil cur = true →
              (SetVar st sid name val).2 = .ok val ∧
              LocalValue (SetVar st sid name val).1 sid name = some val) ∧
           (IsNil cur = false → TypeOf cur ≠ TypeOf val →
              SetVar st sid name val = (st, .error (.typeMismatch name))) ∧
           (IsNil cur = false → TypeOf cur = TypeOf val →
              (SetVar st sid name val).2 = .ok val ∧
              (SetVar st sid name val).1.cells[cid]? = some val ∧
              (SetVar st sid name val).1.scopes = st.scopes)))) := by
  intro st sid name val sd hsd
  have hlt : sid < st.scopes.length := by
    rcases List.getElem?_eq_some_iff.mp hsd with ⟨h, _⟩
    exact h
  constructor
  · intro hfind
    constructor
    · simp [SetVar, hsd, hfind]
    · simp only [SetVar, hsd, hfind, LocalValue]
      rw [List.getElem?_set_self hlt]
      simp only [assocFind_assocSet, if_pos rfl]
      exact List.getElem?_concat_length st.cells val
  · intro cid cur hfind hcur
    refine ⟨?_, ?_, ?_⟩
    · intro hnil
      constructor
      · simp [SetVar, hsd, hfind, hcur, hnil]
      · simp only [SetVar, hsd, hfind, hcur, hnil, if_true, LocalValue]
        rw [List.getElem?_set_self hlt]
        simp only [assocFind_assocSet, if_pos rfl]
        exact List.getElem?_concat_length st.cells val
    · intro hnil hty
      simp only [SetVar, hsd, hfind, hcur, hnil, Bool.false_eq_true, if_false]
      rw [if_pos hty]
    · intro hnil hty
      have hcidlt : cid < st.cells.length := by
        rcases List.getElem?_eq_some_iff.mp hcur with ⟨h, _⟩
        exact h
      simp only [SetVar, hsd, hfind, hcur, hnil, Bool.false_eq_true, if_false]
      rw [if_neg (fun hne => hne hty)]
      exact ⟨rfl, by rw [List.getElem?_set_self hcidlt], rfl⟩

/-- C4 witness: in a store whose single scope binds x to a cell holding
int64 1 — Set of a string fails with the type mismatch and changes
nothing; Set of another int64 succeeds and overwrites the cell; Set of a
fresh name stores unconditionally. -/
theorem C4_set_type_stability_witness :
    SetVar c4Store 0 "x" (.strV "a") = (c4Store, .error (.typeMismatch "x")) ∧
    (SetVar c4Store 0 "x" (.intV 2)).2 = .ok (.intV 2) ∧
    (SetVar c4Store 0 "x" (.intV 2)).1.cells[0]? = some (.intV 2) ∧
    (SetVar c4Store 0 "y" (.strV "s")).2 = .ok (.strV "s") ∧
    LocalValue (SetVar c4Store 0 "y" (.strV "s")).1 0 "y" = some (.strV "s") := by
  have h := C4_set_type_stability c4Store 0 "x" (.strV "a") ⟨[("x", 0)], Option.none⟩ rfl
  have h2 := C4_set_type_stability c4Store 0 "x" (.intV 2) ⟨[("x", 0)], Option.none⟩ rfl
  have h3 := C4_set_type_stability c4Store 0 "y" (.strV "s") ⟨[("x", 0)], Option.none⟩ rfl
  refine ⟨?_, ?_, ?_, ?_, ?_⟩
  · exact (h.2 0 (.intV 1) rfl rfl).2.1 rfl (by decide)
  · exact ((h2.2 0 (.intV 1) rfl rfl).2.2 rfl rfl).1
  · exact ((h2.2 0 (.intV 1) rfl rfl).2.2 rfl rfl).2.1
  · exact (h3.1 rfl).1
  · exact (h3.1 rfl).2

/-- Membership in the FreeVariables fold: an identifier survives into the
free list iff it is already in the accumulator or appears in the
identifier list and is not a parameter, channel or local. -/
lemma freeFold_mem (ps chs ls : List String) (x : String) :
    ∀ (ids free : List String),
      x ∈ ids.foldl (fun free id =>
        if id ∈ free ∨ id ∈ ps ∨ id ∈ chs ∨ id ∈ ls then free else free ++ [id]) free ↔
      x ∈ free ∨ (x ∈ ids ∧ x ∉ ps ∧ x ∉ chs ∧ x ∉ ls) := by
  intro ids
  induction ids with
  | nil => intro free; simp
  | cons id rest ih =>
    intro free
    simp only [List.foldl_cons]
    by_cases hcond : id ∈ free ∨ id ∈ ps ∨ id ∈ chs ∨ id ∈ ls
    · rw [if_pos hcond, ih]
      constructor
      · rintro (h | h)
        · exact Or.inl h
        · exact Or.inr ⟨List.mem_cons_of_mem _ h.1, h.2⟩
      · rintro (h | ⟨hmem, hps, hchs, hls⟩)
        · exact Or.inl h
        · rcases List.mem_cons.mp hmem with hx | hx
          · subst hx
            rcases hcond with h | h | h | h
            · exact Or.inl h
            · exact absurd h hps
            · exact absurd h hchs
            · exact absurd h hls
          · exact Or.inr ⟨hx, hps, hchs, hls⟩
    · rw [if_neg hcond, ih]
      push_neg at hcond
      obtain ⟨hfree, hps', hchs', hls'⟩ := hcond
      constructor
      · rintro (h | h)
        · rcases List.mem_append.mp h with h | h
          · exact Or.inl h
          · simp only [List.mem_singleton] at h
            subst h
            exact Or.inr ⟨List.mem_cons_self _ _, hps', hchs', hls'⟩
        · exact Or.inr ⟨List.mem_cons_of_mem _ h.1, h.2⟩
      · rintro (h | ⟨hmem, hps, hchs, hls⟩)
        · exact Or.inl (List.mem_append.mpr (Or.inl h))
        · rcases List.mem_cons.mp hmem with hx | hx
          · subst hx
            exact Or.inl (List.mem_append.mpr (Or.inr (by simp)))
          · exact Or.inr ⟨hx, hps, hchs, hls⟩

/-- C6: FreeVariables is exactly the referenced identifiers outside
parameters, channels and locals, unioned with the externs; and after
FuncAnalysis the post-pass has removed every extern name from locals, so
an extern declaration overrides incidental local inference. -/
theorem C6_free_variables :
    ∀ (fuel : Nat) (n : Node) (a : Analysis), funcAnalysisF fuel n = .ok a →
      (∀ x, x ∈ FreeVariables a ↔
        (x ∈ a.identifiers ∧ x ∉ a.parameters ∧ x ∉ a.channels ∧ x ∉ a.locals) ∨
          x ∈ a.externs) ∧
      (∀ x ∈ a.externs, x ∉ a.locals) := by
  intro fuel n a hA
  constructor
  · intro x
    unfold FreeVariables
    rw [freeFold_mem]
    tauto
  · intro x hx hmem
    unfold funcAnalysisF at hA
    split at hA
    case isFalse => exact absurd hA (by simp)
    case isTrue =>
      split at hA
      case h_2 => exact absurd hA (by simp)
      case h_1 ch0 ch1 ch2 rest heq =>
        cases h0 : identsF fuel ch0 with
        | error e => rw [h0] at hA; exact absurd hA (by simp)
        | ok ps =>
          rw [h0] at hA
          cases h1 : identsF fuel ch1 with
          | error e => rw [h1] at hA; exact absurd hA (by simp)
          | ok chs =>
            rw [h1] at hA
            simp only [Except.ok.injEq] at hA
            rw [← hA] at hx hmem
            simp only at hx hmem
            rcases List.mem_filter.mp hmem with ⟨-, hdec⟩
            exact (of_decide_eq_true hdec) hx

/-- C6 witness: the analysis of `func(){ extern z; z := z + 1; w }` — z is
assigned in the body yet is not a local (the extern wins) and both z and w
are free. -/
theorem C6_free_variables_witness :
    ∃ a, funcAnalysisF 20 c6Fn = .ok a ∧ (∀ x ∈ a.externs, x ∉ a.locals) ∧
      "w" ∈ FreeVariables a ∧ "z" ∈ FreeVariables a := by
  refine ⟨_, rfl, (C6_free_variables 20 c6Fn _ rfl).2, ?_, ?_⟩
  · exact ((C6_free_variables 20 c6Fn _ rfl).1 "w").mpr
      (Or.inl ⟨by decide, by decide, by decide, by decide⟩)
  · exact ((C6_free_variables 20 c6Fn _ rfl).1 "z").mpr (Or.inr (by decide))

/-- C7 counterexample: a program with an unsupported construct (a FOR
node) inside a function body COMPILES successfully — the claim that
compiling any program containing an unsupported construct yields the
unknown-operator error before evaluation is false, because FuncDefinition
defers compiling the body until the literal is evaluated. -/
theorem C7_unknown_operator_counterexample :
    compileF 20 progC7 = .ok progC7c := rfl

/-- C7 amended: a node whose token kind has no entry in the dispatch
table yields the compile-time "unknown operator" error the moment its
Evaluator is built — for every such node, before any evaluation of that
node.  But a function body is compiled only when the function literal is
evaluated, so for `x := 1; f := func(){ for }` the program compiles, the
assignment to x takes effect, and only then does evaluating the literal
report the unknown operator. -/
theorem C7_unknown_operator_amended :
    (∀ (fuel : Nat) (n : Node), hasProducer n.tok = false →
      compileF (fuel+1) n = .error (.unknownOperator n.lit)) ∧
    runC7.map (fun r => r.2) = .ok (.err (.unknownOperator "for")) ∧
    runC7.map (fun r => ValueOf r.1 0 "x") = .ok (.ok (.intV 1)) := by
  refine ⟨?_, rfl, rfl⟩
  intro fuel n h
  obtain ⟨t, l, cs⟩ := n
  simp only [Node.tok] at h
  cases t <;> first
    | exact absurd h (by decide)
    | rfl

/-- C7 witness: the dispatch lookup at the concrete FOR node. -/
theorem C7_unknown_operator_witness :
    hasProducer (Node.mk .FOR "for" []).tok = false ∧
    compileF 1 (Node.mk .FOR "for" []) = .error (.unknownOperator "for") :=
  ⟨rfl, C7_unknown_operator_amended.1 0 (Node.mk .FOR "for" []) rfl⟩

/-- A continue signal is neither a break signal nor a return signal. -/
lemma continue_not_break_return (vals : List Value) (h : IsContinueValue vals = true) :
    IsBreakValue vals = false ∧ IsReturnValue vals = false := by
  cases vals with
  | nil => simp [IsContinueValue] at h
  | cons v rest =>
    cases rest with
    | cons w t => simp [IsContinueValue] at h
    | nil =>
      cases v with
      | ctrlV k rv => cases k <;> simp_all [IsContinueValue, IsBreakValue, IsReturnValue]
      | nilV => simp [IsContinueValue] at h
      | boolV b => simp [IsContinueValue] at h
      | intV i => simp [IsContinueValue] at h
      | floatV q => simp [IsContinueValue] at h
      | strV s => simp [IsContinueValue] at h
      | funcV ps chs ls cap bodyC => simp [IsContinueValue] at h

/-- C8: a continue-kind signal in a loop body (a) short-circuits the
remaining statements of the statement list it occurs in — the list's
result is the signal itself, whatever statements remain; (b) matches
neither the break case nor the return case of the loop, so the loop
evaluates again from the condition (one unfolding of the loop consuming
the signal); and (c) concretely,
`i := 0; while i < 3 { i := i + 1; continue; i := i + 100 }` terminates
normally with i = 3 — the statement after continue never runs and the
signal never escapes the loop. -/
theorem C8_continue_consumed_by_loop :
    (∀ (fuel : Nat) (c : Compiled) (rest : List Compiled) (acc : List Value)
        (st : Store) (sid : Nat) (st1 : Store) (vals : List Value),
      evalC fuel c st sid = (st1, .ok vals) → IsControlValue vals = true →
      runStmts (fun c' st' sid' => evalC fuel c' st' sid') (c :: rest) acc st sid
        = (st1, .ok vals)) ∧
    (∀ (fuel : Nat) (cnd bdy : Compiled) (st : Store) (sid : Nat)
        (st1 : Store) (cv : Value) (st2 : Store) (bvals : List Value),
      StandardSingleEval (fun c' st' sid' => evalC fuel c' st' sid') cnd st sid
        = (st1, .ok cv) →
      IsTruthy cv = true →
      evalC fuel bdy st1 sid = (st2, .ok bvals) →
      IsContinueValue bvals = true →
      evalC (fuel+1) (.loop cnd bdy) st sid = evalC fuel (.loop cnd bdy) st2 sid) ∧
    runC8.map (fun r => r.2) = .ok (.ok [.boolV false]) ∧
    runC8.map (fun r => ValueOf r.1 0 "i") = .ok (.ok (.intV 3)) := by
  refine ⟨?_, ?_, rfl, rfl⟩
  · intro fuel c rest acc st sid st1 vals h hctl
    simp only [runStmts, h, hctl, if_true]
  · intro fuel cnd bdy st sid st1 cv st2 bvals hcond htr hbody hcont
    obtain ⟨hbr, hret⟩ := continue_not_break_return bvals hcont
    rw [evalC_succ]
    simp only [evalStep, hcond, htr, hbody, hbr, hret, Bool.not_true, Bool.false_eq_true,
      if_false]

/-- C8 witness: part (a) at a statement list starting with a bare
continue, part (b) at the loop `while true { continue }` — one unfolding
consumes the signal and re-enters the loop. -/
theorem C8_continue_consumed_witness :
    runStmts (fun c' st' sid' => evalC 1 c' st' sid') [.contOp, .nilLit] [] GlobalStore 0
      = (GlobalStore, .ok ContinueValue) ∧
    evalC 3 (.loop .trueLit .contOp) GlobalStore 0
      = evalC 2 (.loop .trueLit .contOp) GlobalStore 0 := by
  constructor
  · exact C8_continue_consumed_by_loop.1 1 .contOp [.nilLit] [] GlobalStore 0
      GlobalStore ContinueValue rfl rfl
  · exact C8_continue_consumed_by_loop.2.1 2 .trueLit .contOp GlobalStore 0
      GlobalStore (.boolV true) GlobalStore ContinueValue rfl rfl rfl rfl

end Gosh
